import Mathlib

/-!
Verification of the session-and-action dispatch engine of the Messenger
example (`examples/messenger.js`).

The JavaScript is embedded shallowly:

* the global `sessions` object becomes an insertion-ordered association
  list `Store` (JavaScript string-keyed objects preserve insertion order;
  assignment to an existing key replaces in place, to a fresh key appends);
* machine values that may be absent in a JSON payload become `Option`s;
  accessing a property of an absent object is modelled as a thrown
  `JsError` (JavaScript `TypeError`), so fallible handler code lives in
  `Except JsError`;
* JavaScript truthiness is made explicit where the code relies on it:
  a number is truthy iff it is nonzero, a string iff it is nonempty,
  any object or array (even empty) is truthy;
* side effects (outbound sends, carousel sends, console logging) are
  collected in a `List Effect`.
-/

/-- A conversation context: an open-ended JSON-like mapping from string
keys to values, opaque to the engine (`sessionState` in the source). -/
abbrev Ctx := List (String × String)

/-- One entry of the `sessions` object:
`sessionId -> {fbid: facebookUserId, context: sessionState}`. -/
structure Session where
  fbid : Nat
  context : Ctx
deriving Repr, DecidableEq

/-- The global `sessions` object, as an insertion-ordered association list
from sessionId to session record. -/
abbrev Store := List (String × Session)

namespace Store

/-- Property read `sessions[k]`: the value at key `k`, if present
(JavaScript objects have unique keys; the first match is the value). -/
def get? (st : Store) (k : String) : Option Session :=
  match st with
  | [] => none
  | p :: t => if p.1 = k then some p.2 else get? t k

/-- Property write `sessions[k] = v`: replace in place when the key is
present, append otherwise (JavaScript object key insertion order). -/
def set (st : Store) (k : String) (v : Session) : Store :=
  match st.get? k with
  | some _ => st.map (fun p => if p.1 = k then (k, v) else p)
  | none => st ++ [(k, v)]

/-- Well-formedness of the embedding of a JavaScript object: keys are
not duplicated. -/
def wf (st : Store) : Prop := (st.map Prod.fst).Nodup

end Store

/-- The `Object.keys(sessions).forEach` scan of `findOrCreateSession`:
`sessionId` starts `undefined` and is overwritten by every key whose
record carries the wanted `fbid`, so the scan yields the LAST matching
key, or `none` when no session belongs to the user. -/
def lookupSessionId (st : Store) (fbid : Nat) : Option String :=
  st.foldl (fun acc p => if p.2.fbid = fbid then some p.1 else acc) none

/-- `findOrCreateSession(fbid)`.  The fresh sessionId the source
synthesizes is `new Date().toISOString()`; the clock reading is the
explicit argument `now`.  The `if (!sessionId)` test is JavaScript
truthiness, so a found key that is the empty string also triggers
creation. -/
def findOrCreateSession (now : String) (st : Store) (fbid : Nat) : String × Store :=
  match lookupSessionId st fbid with
  | some k =>
      if k = "" then (now, st.set now ⟨fbid, []⟩) else (k, st)
  | none => (now, st.set now ⟨fbid, []⟩)

/-- The context write `sessions[sessionId].context = context` performed by
the `runActions` completion callback (the Session Store operation the
design document calls `replaceContext`). -/
def replaceContext (st : Store) (sid : String) (c : Ctx) : Store :=
  st.map (fun p => if p.1 = sid then (p.1, { p.2 with context := c }) else p)

/-- At most one session per external user: any two store entries whose
records carry the same `fbid` sit at the same key. -/
def atMostOnePerUser (st : Store) : Prop :=
  ∀ p ∈ st, ∀ q ∈ st, p.2.fbid = q.2.fbid → p.1 = q.1

namespace Store

theorem get?_eq_none_iff (st : Store) (k : String) :
    get? st k = none ↔ k ∉ st.map Prod.fst := by
  induction st with
  | nil => simp [get?]
  | cons p t ih =>
      by_cases h : p.1 = k
      · simp [get?, h]
      · have h1 : ¬ k = p.1 := fun hh => h hh.symm
        simp [get?, h, h1, ih]

theorem get?_some_mem {st : Store} {k : String} {v : Session}
    (h : get? st k = some v) : (k, v) ∈ st := by
  induction st with
  | nil => simp [get?] at h
  | cons p t ih =>
      by_cases hk : p.1 = k
      · simp only [get?, if_pos hk, Option.some.injEq] at h
        have : p = (k, v) := by
          cases p
          simp_all
        exact this ▸ List.mem_cons_self _ _
      · simp only [get?, if_neg hk] at h
        exact List.mem_cons_of_mem _ (ih h)

theorem get?_append_of_none {st : Store} {k : String} (l : Store)
    (h : get? st k = none) : get? (st ++ l) k = get? l k := by
  induction st with
  | nil => simp
  | cons p t ih =>
      by_cases hk : p.1 = k
      · simp [get?, hk] at h
      · simp only [get?, if_neg hk] at h
        simp only [List.cons_append, get?, if_neg hk]
        exact ih h

theorem get?_append_singleton_ne (st : Store) (k k' : String) (v : Session)
    (h : ¬ k = k') : get? (st ++ [(k, v)]) k' = get? st k' := by
  induction st with
  | nil => simp [get?, h]
  | cons p t ih =>
      simp only [List.cons_append, get?]
      by_cases hk' : p.1 = k'
      · simp [hk']
      · simp only [if_neg hk']
        exact ih

theorem get?_mapReplace_self {st : Store} {k : String} {w : Session}
    (v : Session) (h : get? st k = some w) :
    get? (st.map (fun p => if p.1 = k then (k, v) else p)) k = some v := by
  induction st with
  | nil => simp [get?] at h
  | cons p t ih =>
      by_cases hk : p.1 = k
      · simp [get?, hk]
      · simp only [get?, if_neg hk] at h
        simp only [List.map_cons, if_neg hk, get?, if_neg hk]
        exact ih h

theorem get?_mapReplace_ne (st : Store) (k k' : String) (v : Session)
    (h : k' ≠ k) :
    get? (st.map (fun p => if p.1 = k then (k, v) else p)) k' = get? st k' := by
  induction st with
  | nil => simp [get?]
  | cons p t ih =>
      by_cases hk : p.1 = k
      · have h1 : ¬ k = k' := fun hh => h hh.symm
        have h2 : ¬ p.1 = k' := fun hh => h1 (hk.symm.trans hh)
        simp only [List.map_cons, if_pos hk, get?, if_neg h1, if_neg h2]
        exact ih
      · simp only [List.map_cons, if_neg hk, get?]
        by_cases hk' : p.1 = k'
        · simp [hk']
        · simp only [if_neg hk']
          exact ih

theorem get?_set_self (st : Store) (k : String) (v : Session) :
    get? (set st k v) k = some v := by
  cases hg : get? st k with
  | none =>
      simp only [set, hg]
      rw [get?_append_of_none _ hg]
      simp [get?]
  | some w =>
      simp only [set, hg]
      exact get?_mapReplace_self v hg

theorem get?_set_ne (st : Store) (k k' : String) (v : Session)
    (h : k' ≠ k) : get? (set st k v) k' = get? st k' := by
  cases hg : get? st k with
  | none =>
      simp only [set, hg]
      exact get?_append_singleton_ne st k k' v (fun hh => h hh.symm)
  | some w =>
      simp only [set, hg]
      exact get?_mapReplace_ne st k k' v h

/-- Every record of `set st k v` is either the written record or an
untouched record of `st` at a key other than `k`. -/
theorem mem_set {st : Store} {k : String} {v : Session} {q : String × Session}
    (hq : q ∈ set st k v) : q = (k, v) ∨ (q ∈ st ∧ ¬ q.1 = k) := by
  cases hg : get? st k with
  | some w =>
      simp only [set, hg] at hq
      rcases List.mem_map.mp hq with ⟨p0, hp0, him⟩
      by_cases hk : p0.1 = k
      · left
        rw [← him, if_pos hk]
      · right
        rw [← him, if_neg hk]
        exact ⟨hp0, hk⟩
  | none =>
      simp only [set, hg] at hq
      rcases List.mem_append.mp hq with h | h
      · right
        refine ⟨h, fun he => ?_⟩
        have hk : k ∉ st.map Prod.fst := (get?_eq_none_iff st k).mp hg
        exact hk (he ▸ List.mem_map_of_mem Prod.fst h)
      · left
        simpa using h

end Store

theorem lookupAux_none (st : Store) (fbid : Nat) :
    ∀ acc : Option String,
      st.foldl (fun acc p => if p.2.fbid = fbid then some p.1 else acc) acc = none
        ↔ acc = none ∧ ∀ p ∈ st, ¬ p.2.fbid = fbid := by
  induction st with
  | nil =>
      intro acc
      simp
  | cons p t ih =>
      intro acc
      simp only [List.foldl_cons, ih, List.mem_cons]
      by_cases h : p.2.fbid = fbid
      · constructor
        · rintro ⟨hc, -⟩
          simp [h] at hc
        · rintro ⟨-, hb⟩
          exact absurd h (hb p (Or.inl rfl))
      · rw [if_neg h]
        constructor
        · rintro ⟨ha, hT⟩
          exact ⟨ha, fun q hq => hq.elim (fun he => he ▸ h) (hT q)⟩
        · rintro ⟨ha, hb⟩
          exact ⟨ha, fun q hq => hb q (Or.inr hq)⟩

/-- The `forEach` scan finds nothing exactly when no stored record
belongs to the user. -/
theorem lookupSessionId_eq_none_iff (st : Store) (fbid : Nat) :
    lookupSessionId st fbid = none ↔ ∀ p ∈ st, ¬ p.2.fbid = fbid := by
  simpa using lookupAux_none st fbid none

theorem lookupAux_some (fbid : Nat) (now : String) :
    ∀ (st : Store) (acc : Option String),
      (∀ p ∈ st, p.2.fbid = fbid → p.1 = now) →
      ((∃ p ∈ st, p.2.fbid = fbid) ∨ acc = some now) →
      st.foldl (fun acc p => if p.2.fbid = fbid then some p.1 else acc) acc
        = some now := by
  intro st
  induction st with
  | nil =>
      intro acc _ hor
      simp only [List.foldl_nil]
      rcases hor with h | h
      · simp at h
      · exact h
  | cons p t ih =>
      intro acc hk hor
      simp only [List.foldl_cons]
      by_cases h : p.2.fbid = fbid
      · refine ih _ (fun q hq hm => hk q (List.mem_cons_of_mem _ hq) hm) (Or.inr ?_)
        rw [if_pos h, hk p (List.mem_cons_self _ _) h]
      · refine ih _ (fun q hq hm => hk q (List.mem_cons_of_mem _ hq) hm) ?_
        rw [if_neg h]
        rcases hor with ⟨q, hq, hm⟩ | ha
        · rcases List.mem_cons.mp hq with rfl | hq2
          · exact absurd hm h
          · exact Or.inl ⟨q, hq2, hm⟩
        · exact Or.inr ha

/-- C1: for every external user id, any sequence of calls to
`findOrCreateSession` with that id creates at most one session: starting
from a store that has at most one session per user and none for `fbid`,
the first call (with a nonempty clock reading) creates exactly one record
with empty context, every later call returns the same `sessionId` and
leaves the store untouched, and the at-most-one-session-per-user
invariant is preserved. -/
theorem findOrCreateSession_at_most_one_session (st : Store) (fbid : Nat)
    (now nxt : String) (hone : atMostOnePerUser st)
    (habs : lookupSessionId st fbid = none) (hnow : now ≠ "") :
    Store.get? (findOrCreateSession now st fbid).2
        (findOrCreateSession now st fbid).1 = some ⟨fbid, []⟩ ∧
    findOrCreateSession nxt (findOrCreateSession now st fbid).2 fbid
      = ((findOrCreateSession now st fbid).1, (findOrCreateSession now st fbid).2) ∧
    atMostOnePerUser (findOrCreateSession now st fbid).2 := by
  have hall : ∀ p ∈ st, ¬ p.2.fbid = fbid :=
    (lookupSessionId_eq_none_iff st fbid).mp habs
  simp only [findOrCreateSession, habs]
  refine ⟨Store.get?_set_self st now _, ?_, ?_⟩
  · have hkeys : ∀ p ∈ Store.set st now ⟨fbid, []⟩, p.2.fbid = fbid → p.1 = now := by
      intro p hp hm
      rcases Store.mem_set hp with h1 | ⟨h2, -⟩
      · rw [h1]
      · exact absurd hm (hall p h2)
    have hmem : (now, (⟨fbid, []⟩ : Session)) ∈ Store.set st now ⟨fbid, []⟩ :=
      Store.get?_some_mem (Store.get?_set_self st now _)
    have hlook : lookupSessionId (Store.set st now ⟨fbid, []⟩) fbid = some now :=
      lookupAux_some fbid now _ none hkeys (Or.inl ⟨_, hmem, rfl⟩)
    simp only [findOrCreateSession, hlook, if_neg hnow]
  · intro p hp q hq hfb
    rcases Store.mem_set hp with hp1 | ⟨hp2, hpk⟩ <;>
      rcases Store.mem_set hq with hq1 | ⟨hq2, hqk⟩
    · rw [hp1, hq1]
    · rw [hp1] at hfb ⊢
      exact absurd hfb.symm (hall q hq2)
    · rw [hq1] at hfb ⊢
      exact absurd hfb (hall p hp2)
    · exact hone p hp2 q hq2 hfb

theorem findOrCreateSession_at_most_one_session_witness :
    Store.get? (findOrCreateSession "2024-05-01T12:00:00.000Z" [] 5).2
        (findOrCreateSession "2024-05-01T12:00:00.000Z" [] 5).1 = some ⟨5, []⟩ ∧
    findOrCreateSession "2024-05-01T12:00:01.000Z"
        (findOrCreateSession "2024-05-01T12:00:00.000Z" [] 5).2 5
      = ((findOrCreateSession "2024-05-01T12:00:00.000Z" [] 5).1,
         (findOrCreateSession "2024-05-01T12:00:00.000Z" [] 5).2) ∧
    atMostOnePerUser (findOrCreateSession "2024-05-01T12:00:00.000Z" [] 5).2 :=
  findOrCreateSession_at_most_one_session [] 5
    "2024-05-01T12:00:00.000Z" "2024-05-01T12:00:01.000Z"
    (by simp [atMostOnePerUser]) (by decide) (by decide)

/-- C2 counterexample: the synthesized sessionId is just the clock
reading, so a second user arriving in the same millisecond as a stored
session reuses that sessionId and OVERWRITES the first user record:
user 1 has a session under the colliding timestamp, user 2 is absent,
and after the call user 1 has no session at all. -/
theorem findOrCreateSession_clash :
    (findOrCreateSession "2016-01-01T00:00:00.000Z"
        [("2016-01-01T00:00:00.000Z", ⟨1, []⟩)] 2).1
      = "2016-01-01T00:00:00.000Z" ∧
    lookupSessionId [("2016-01-01T00:00:00.000Z", ⟨1, []⟩)] 2 = none ∧
    lookupSessionId (findOrCreateSession "2016-01-01T00:00:00.000Z"
        [("2016-01-01T00:00:00.000Z", ⟨1, []⟩)] 2).2 1 = none := by
  decide

/-- C2 (amended): for a user absent from the store, and PROVIDED the
synthesized clock reading is not already a sessionId of the store,
`findOrCreateSession` appends a record with empty context under the new
id, the new id differs from every stored sessionId, and every other
session is unchanged. -/
theorem findOrCreateSession_fresh (st : Store) (fbid : Nat) (now : String)
    (habs : lookupSessionId st fbid = none)
    (hfresh : Store.get? st now = none) :
    findOrCreateSession now st fbid = (now, st ++ [(now, ⟨fbid, []⟩)]) ∧
    now ∉ st.map Prod.fst ∧
    (∀ k, k ≠ now →
      Store.get? (st ++ [(now, ⟨fbid, []⟩)]) k = Store.get? st k) := by
  refine ⟨?_, (Store.get?_eq_none_iff st now).mp hfresh, ?_⟩
  · simp only [findOrCreateSession, habs, Store.set, hfresh]
  · intro k hk
    exact Store.get?_append_singleton_ne st now k _ (fun hh => hk hh.symm)

theorem findOrCreateSession_fresh_witness :
    findOrCreateSession "2024-05-01T12:00:02.000Z"
        [("2024-05-01T12:00:00.000Z", ⟨1, []⟩)] 2
      = ("2024-05-01T12:00:02.000Z",
         [("2024-05-01T12:00:00.000Z", ⟨1, []⟩)]
           ++ [("2024-05-01T12:00:02.000Z", ⟨2, []⟩)]) ∧
    "2024-05-01T12:00:02.000Z"
      ∉ [("2024-05-01T12:00:00.000Z", (⟨1, []⟩ : Session))].map Prod.fst ∧
    (∀ k, k ≠ "2024-05-01T12:00:02.000Z" →
      Store.get? ([("2024-05-01T12:00:00.000Z", ⟨1, []⟩)]
          ++ [("2024-05-01T12:00:02.000Z", ⟨2, []⟩)]) k
        = Store.get? [("2024-05-01T12:00:00.000Z", ⟨1, []⟩)] k) :=
  findOrCreateSession_fresh [("2024-05-01T12:00:00.000Z", ⟨1, []⟩)] 2
    "2024-05-01T12:00:02.000Z" (by decide) (by decide)

theorem get?_replaceContext_self {st : Store} {sid : String} {w : Session}
    (c : Ctx) (h : Store.get? st sid = some w) :
    Store.get? (replaceContext st sid c) sid = some ⟨w.fbid, c⟩ := by
  induction st with
  | nil => simp [Store.get?] at h
  | cons p t ih =>
      by_cases hk : p.1 = sid
      · simp only [Store.get?, if_pos hk, Option.some.injEq] at h
        simp only [replaceContext, List.map_cons, if_pos hk, Store.get?,
          if_pos hk, ← h]
      · simp only [Store.get?, if_neg hk] at h
        simp only [replaceContext, List.map_cons, if_neg hk, Store.get?,
          if_neg hk]
        exact ih h

theorem get?_replaceContext_ne (st : Store) (sid k : String) (c : Ctx)
    (h : k ≠ sid) :
    Store.get? (replaceContext st sid c) k = Store.get? st k := by
  induction st with
  | nil => simp [replaceContext]
  | cons p t ih =>
      by_cases hs : p.1 = sid
      · have hpk : ¬ p.1 = k := fun hh => h (hh.symm.trans hs)
        simp only [replaceContext, List.map_cons, if_pos hs, Store.get?,
          if_neg hpk]
        exact ih
      · simp only [replaceContext, List.map_cons, if_neg hs, Store.get?]
        by_cases hpk : p.1 = k
        · simp [hpk]
        · simp only [if_neg hpk]
          exact ih

/-- C8: round trip through the Session Store: for every sessionId present
in the store and every context value `c`, writing
`sessions[sessionId].context = c` and then reading that session yields
exactly `c`. -/
theorem replaceContext_roundtrip (st : Store) (sid : String) (c : Ctx)
    (h : (Store.get? st sid).isSome) :
    (Store.get? (replaceContext st sid c) sid).map Session.context = some c := by
  rcases Option.isSome_iff_exists.mp h with ⟨w, hw⟩
  rw [get?_replaceContext_self c hw]
  rfl

theorem replaceContext_roundtrip_witness :
    (Store.get? (replaceContext
        [("s1", ⟨7, [("a", "1")]⟩), ("s2", ⟨8, []⟩)] "s1" [("b", "2")])
      "s1").map Session.context = some [("b", "2")] :=
  replaceContext_roundtrip [("s1", ⟨7, [("a", "1")]⟩), ("s2", ⟨8, []⟩)]
    "s1" [("b", "2")] (by decide)

/-- C9: replacing a context is a wholesale overwrite with a frame
condition: the stored record becomes exactly the old `fbid` paired with
the new context (so no key of the previous context survives unless it is
a key of the new one), and every other sessionId maps to exactly what it
mapped to before. -/
theorem replaceContext_wholesale (st : Store) (sid : String) (c : Ctx)
    (sess : Session) (h : Store.get? st sid = some sess) :
    Store.get? (replaceContext st sid c) sid = some ⟨sess.fbid, c⟩ ∧
    (∀ key, key ∉ c.map Prod.fst → ∀ s2,
      Store.get? (replaceContext st sid c) sid = some s2 →
        key ∉ s2.context.map Prod.fst) ∧
    (∀ k, k ≠ sid →
      Store.get? (replaceContext st sid c) k = Store.get? st k) := by
  refine ⟨get?_replaceContext_self c h, ?_, ?_⟩
  · intro key hkey s2 hs2
    rw [get?_replaceContext_self c h, Option.some.injEq] at hs2
    rw [← hs2]
    exact hkey
  · intro k hk
    exact get?_replaceContext_ne st sid k c hk

theorem replaceContext_wholesale_witness :
    Store.get? (replaceContext
        [("s1", ⟨7, [("a", "1")]⟩), ("s2", ⟨8, []⟩)] "s1" [("b", "2")])
      "s1" = some ⟨7, [("b", "2")]⟩ ∧
    (∀ key, key ∉ ([("b", "2")] : Ctx).map Prod.fst → ∀ s2,
      Store.get? (replaceContext
          [("s1", ⟨7, [("a", "1")]⟩), ("s2", ⟨8, []⟩)] "s1" [("b", "2")])
        "s1" = some s2 → key ∉ s2.context.map Prod.fst) ∧
    (∀ k, k ≠ "s1" →
      Store.get? (replaceContext
          [("s1", ⟨7, [("a", "1")]⟩), ("s2", ⟨8, []⟩)] "s1" [("b", "2")]) k
        = Store.get? [("s1", ⟨7, [("a", "1")]⟩), ("s2", ⟨8, []⟩)] k) :=
  replaceContext_wholesale [("s1", ⟨7, [("a", "1")]⟩), ("s2", ⟨8, []⟩)]
    "s1" [("b", "2")] ⟨7, [("a", "1")]⟩ (by decide)

/-- `messaging.sender` — the source reads `messaging.sender.id`
unconditionally once the guard has passed. -/
structure SenderObj where
  id : Nat
deriving Repr, DecidableEq

/-- `messaging.recipient` — `recipient.id` may be missing from a payload;
the guard compares it (strictly) with the configured page id. -/
structure RecipientObj where
  id : Option Nat
deriving Repr, DecidableEq

/-- An inbound attachment: opaque data, merely detected by the handler. -/
abbrev Attachment := String

/-- `messaging.message` — both `text` and `attachments` may be absent. -/
structure MessageObj where
  text : Option String
  attachments : Option (List Attachment)
deriving Repr, DecidableEq

/-- `messaging.postback` — the source reads `postback.payload` whenever
`postback` is present. -/
structure PostbackObj where
  payload : String
deriving Repr, DecidableEq

/-- One element of `body.entry[0].messaging`. -/
structure Messaging where
  sender : Option SenderObj
  recipient : Option RecipientObj
  message : Option MessageObj
  postback : Option PostbackObj
deriving Repr, DecidableEq

/-- One element of `body.entry`. -/
structure Entry where
  id : Option Nat
  messaging : Option (List Messaging)
deriving Repr, DecidableEq

/-- An inbound webhook POST body. -/
structure Body where
  object : Option String
  entry : Option (List Entry)
deriving Repr, DecidableEq

/-- `getFirstMessagingEntry(body)`: the `&&`-chain of the source.  The
configured `FB_PAGE_ID` is the explicit argument `pageId`.  Each `&&`
guard (object type, `entry` a nonempty array, truthy first element,
matching page id, `messaging` a nonempty array) must pass for the first
messaging entry to be returned; otherwise `val || null` yields null. -/
def getFirstMessagingEntry (pageId : Nat) (body : Body) : Option Messaging :=
  if body.object = some "page" then
    match body.entry with
    | some (e0 :: _) =>
        if e0.id = some pageId then
          match e0.messaging with
          | some (m0 :: _) => some m0
          | _ => none
        else none
    | _ => none
  else none

/-- C5: `getFirstMessagingEntry` is a pure function returning the first
messaging entry of the payload exactly when the body's `object` field is
`page`, its `entry` field is a nonempty array whose first element carries
the configured page id and a nonempty `messaging` array; every other
body yields null. -/
theorem getFirstMessagingEntry_characterization (pageId : Nat) (body : Body)
    (m : Messaging) :
    getFirstMessagingEntry pageId body = some m ↔
      (body.object = some "page" ∧
       ∃ e rest, body.entry = some (e :: rest) ∧ e.id = some pageId ∧
         ∃ ms, e.messaging = some (m :: ms)) := by
  unfold getFirstMessagingEntry
  by_cases ho : body.object = some "page"
  · rw [if_pos ho]
    cases hbe : body.entry with
    | none => simp [ho]
    | some l =>
        cases l with
        | nil => simp [ho]
        | cons e rest =>
            by_cases hid : e.id = some pageId
            · cases hm : e.messaging with
              | none => simp [ho, hid, hm]
              | some ms =>
                  cases ms with
                  | nil => simp [ho, hid, hm]
                  | cons m0 mrest => simp [ho, hid, hm]
            · simp [ho, hid]
  · rw [if_neg ho]
    simp [ho]

/-- An observable side effect of the engine: an outbound text send
(`fbMessage`), an outbound carousel send (`fbCarousel`), or a
`console.log`. -/
inductive Effect where
  | send (recipient : Nat) (text : String)
  | carousel (recipient : Nat)
  | log (message : String)
deriving Repr, DecidableEq

/-- The `error` field a platform response body may embed; its own
`message` field may itself be absent. -/
structure ErrorField where
  message : Option String
deriving Repr, DecidableEq

/-- A transport response body (`data` in the source), JSON-parsed. -/
structure RespBody where
  error : Option ErrorField
deriving Repr, DecidableEq

/-- The error value handed to an `fbMessage` callback: either the
transport-level error or the platform error message embedded in the
response body.  A JavaScript null-ish (falsy `err` and no embedded
message) is `none`. -/
inductive CbErr where
  | transport (e : String)
  | embedded (message : String)
deriving Repr, DecidableEq

/-- The first callback argument of `fbMessage`:
`err || data.error && data.error.message`.  `err` wins when truthy;
otherwise `data.error && data.error.message` is null-ish unless the body
embeds an `error` object that itself carries a `message` field (an
embedded empty-string message is still a non-null value in JavaScript,
hence `some (embedded "")`). -/
def fbMessageErrArg (err : Option String) (data : RespBody) : Option CbErr :=
  match err with
  | some e => some (.transport e)
  | none =>
      match data.error with
      | none => none
      | some ef =>
          match ef.message with
          | none => none
          | some msg => some (.embedded msg)

/-- `fbMessage(recipientId, msg, cb)` with a callback supplied: the
request is issued (one `send` effect) and the callback receives the
normalized pair `(error, responseBody)` built from the transport
result `(err, data)`. -/
def fbMessage (recipientId : Nat) (msg : String) (err : Option String)
    (data : RespBody) : Effect × (Option CbErr × RespBody) :=
  (.send recipientId msg, (fbMessageErrArg err data, data))

/-- C6 counterexample: a 200 response whose body embeds an error object
WITHOUT a message field (`data.error = {}`): the transport call did not
fail and the body does embed an error field, yet
`err || data.error && data.error.message` is `undefined`, so the callback
receives a null error together with that body. -/
theorem fbMessage_embedded_error_dropped :
    (fbMessage 7 "hello" none ⟨some ⟨none⟩⟩).2.1 = none ∧
    ((⟨some ⟨none⟩⟩ : RespBody)).error.isSome = true := by
  decide

/-- C6 (amended): the callback error is non-null exactly when the
transport call failed OR the response body embeds an error field THAT
ITSELF CARRIES A MESSAGE FIELD; an embedded error object without a
message is surfaced as a null error. -/
theorem fbMessage_error_contract (recipientId : Nat) (msg : String)
    (err : Option String) (data : RespBody) :
    ((fbMessage recipientId msg err data).2.1.isSome = true ↔
      (err.isSome = true ∨
        ∃ ef m, data.error = some ef ∧ ef.message = some m)) ∧
    (fbMessage recipientId msg err data).2.2 = data := by
  refine ⟨?_, rfl⟩
  cases err with
  | some e => simp [fbMessage, fbMessageErrArg]
  | none =>
      cases hde : data.error with
      | none => simp [fbMessage, fbMessageErrArg, hde]
      | some ef =>
          cases hm : ef.message with
          | none => simp [fbMessage, fbMessageErrArg, hde, hm]
          | some msg2 => simp [fbMessage, fbMessageErrArg, hde, hm]

/-- A JavaScript runtime failure: reading a property of `undefined`
(e.g. `messaging.recipient.id` when `recipient` is absent, or
`sessions[sessionId].fbid` when the session does not exist). -/
inductive JsError where
  | typeError
deriving Repr, DecidableEq

/-- The `say` action (shape 1, continuation style).  It reads
`sessions[sessionId].fbid` (throwing when the session is absent); with a
truthy recipient it forwards the message through `fbMessage` and, in the
transport callback, logs when an error was reported and then hands the
wheel back with `cb()`; with a falsy recipient it logs and calls `cb()`
directly.  The result pairs the performed effects with the trace of
continuation invocations, one entry per `cb` call carrying the optional
replacement context (the source always calls `cb()` bare).  `err` is the
normalized error the `fbMessage` callback observes. -/
def say (st : Store) (sessionId : String) (message : String)
    (err : Option CbErr) : Except JsError (List Effect × List (Option Ctx)) :=
  match Store.get? st sessionId with
  | none => .error .typeError
  | some s =>
      if s.fbid ≠ 0 then
        .ok (Effect.send s.fbid message ::
              (match err with
               | some _ => [Effect.log "error while forwarding the response"]
               | none => []),
             [none])
      else
        .ok ([Effect.log "could not find user for session"], [none])

/-- Resuming a continuation trace: each `cb` invocation optionally
replaces the running context (shape 1 may call `done()` bare, shape 3
calls `done(updatedContext)`). -/
def applyCbTrace (ctx : Ctx) (trace : List (Option Ctx)) : Ctx :=
  trace.foldl (fun c u => u.getD c) ctx

/-- The action registry of the example: lookup by name of the shape-1 and
shape-3 handlers (`say`, `lookup_tonights_schedule`, `list_schedule`,
`set_reminder`).  `none` means no handler is registered under `name`.
A handler returns the context its continuation resumed with and the
effects it performed; `list_schedule` and `set_reminder` read
`sessions[sessionId].fbid` first and so throw on a missing session. -/
def runAction (st : Store) (sid : String) (ctx : Ctx) (name payload : String)
    (err : Option CbErr) : Option (Except JsError (Ctx × List Effect)) :=
  match name with
  | "say" =>
      some ((say st sid payload err).map (fun r => (applyCbTrace ctx r.2, r.1)))
  | "lookup_tonights_schedule" => some (.ok (ctx, []))
  | "list_schedule" =>
      some (match Store.get? st sid with
        | none => .error .typeError
        | some s => .ok (ctx, [Effect.carousel s.fbid]))
  | "set_reminder" =>
      some (match Store.get? st sid with
        | none => .error .typeError
        | some _ => .ok (ctx, [Effect.log "set reminder..."]))
  | _ => none

/-- One decision of the NLU engine for a turn of the dispatch loop. -/
inductive Decision where
  | merge (entities : List (String × String)) (candidate : Option String)
  | action (name : String) (payload : String)
  | stop
  | failure (message : String)
deriving Repr, DecidableEq

/-- Modelled from the spec: `wit.runActions`, the dispatch loop of the
Wit library — code of this repository that is not under `src/`
(`const Wit = require(..).Wit`).  Per the design (section 4.3) the loop
repeatedly submits the current context to the engine; the successive
engine decisions are supplied as the list `decisions`:
a merge decision runs the `merge` handler (shape 2 — the example handler
logs the context and resumes with the same context); a named action runs
the registered handler, failing the loop with `UnknownAction` when the
name is unregistered and failing it on a handler exception; `stop` ends
the loop DONE with the current context; an engine failure runs the
`error` handler (shape 4 — the example handler logs the message) for
observability and fails the loop.  The context entering turn N+1 is
always the context produced by turn N's continuation.  `oracle` yields
the transport outcome observed by the callback-bearing send of each
action turn. -/
def runActions (st : Store) (sid : String) (decisions : List Decision)
    (ctx : Ctx) (oracle : List (Option CbErr)) :
    List Effect × Except String Ctx :=
  match decisions with
  | [] => ([], .ok ctx)
  | .stop :: _ => ([], .ok ctx)
  | .failure msg :: _ => ([Effect.log msg], .error msg)
  | .merge _ _ :: rest =>
      let step := runActions st sid rest ctx oracle
      (Effect.log "merge context" :: step.1, step.2)
  | .action name payload :: rest =>
      match runAction st sid ctx name payload (oracle.headD none) with
      | none => ([], .error "UnknownAction")
      | some (.error _) => ([], .error "HandlerException")
      | some (.ok (ctx2, effs)) =>
          let step := runActions st sid rest ctx2 oracle.tail
          (effs ++ step.1, step.2)

/-- The completion callback the webhook handler passes to
`wit.runActions`: on error it logs and sends a fixed apology to the
sender, leaving the store untouched; on error-free completion it logs
and persists the final context wholesale
(`sessions[sessionId].context = context`). -/
def witCallback (sender : Nat) (sid : String) (st : Store)
    (res : Except String Ctx) : Store × List Effect :=
  match res with
  | .error _ =>
      (st, [Effect.log "Oops! Got an error from Wit:",
            Effect.send sender "Oops! Got an error from Wit"])
  | .ok c =>
      (replaceContext st sid c, [Effect.log "Waiting for futher messages."])

/-- JavaScript truthiness of an optional string (`undefined` and the
empty string are falsy). -/
def strTruthy : Option String → Bool
  | none => false
  | some s => !s.isEmpty

/-- What the webhook message handler produced when it did not throw:
the acknowledgment status, the resulting session store, the effects
performed, and whether `wit.runActions` was invoked. -/
structure HandlerOut where
  status : Nat
  store : Store
  effects : List Effect
  dispatched : Bool
deriving Repr, DecidableEq

/-- The message handler `app.post` on `/fb`.  Explicit inputs: the
configured page id, the clock reading used for a session created during
this request, the POST body, the session store, and — for a dispatched
loop — the scripted NLU decisions and the transport oracle.
Mirrors the source line by line: extract the first messaging entry;
guard on `(message || postback) && recipient.id === FB_PAGE_ID`
(reading `recipient.id` throws when `recipient` is absent); read
`sender.id` (throwing when `sender` is absent); find or create the
session; extract `msg` and `atts`; on attachments send the fixed apology
without dispatching; on a truthy text run the loop and its completion
callback; acknowledge 200 in every non-throwing path. -/
def postFb (pageId : Nat) (now : String) (body : Body) (st : Store)
    (decisions : List Decision) (oracle : List (Option CbErr)) :
    Except JsError HandlerOut :=
  match getFirstMessagingEntry pageId body with
  | none => .ok ⟨200, st, [], false⟩
  | some m =>
      if m.message.isSome || m.postback.isSome then
        match m.recipient with
        | none => .error .typeError
        | some r =>
            if r.id = some pageId then
              match m.sender with
              | none => .error .typeError
              | some sndr =>
                  let sender := sndr.id
                  let sc := findOrCreateSession now st sender
                  let msg : Option String :=
                    match m.postback with
                    | some pb => some pb.payload
                    | none =>
                        match m.message with
                        | some mm => mm.text
                        | none => none
                  let atts : Option (List Attachment) :=
                    match m.message with
                    | some mm => mm.attachments
                    | none => none
                  match atts with
                  | some _ =>
                      .ok ⟨200, sc.2,
                        [Effect.send sender
                          "Sorry I can only process text messages for now."],
                        false⟩
                  | none =>
                      if strTruthy msg then
                        match Store.get? sc.2 sc.1 with
                        | none => .error .typeError
                        | some sess =>
                            let run := runActions sc.2 sc.1 decisions
                              sess.context oracle
                            let fin := witCallback sender sc.1 sc.2 run.2
                            .ok ⟨200, fin.1,
                              Effect.log "message:" :: (run.1 ++ fin.2), true⟩
                      else .ok ⟨200, sc.2, [], false⟩
            else .ok ⟨200, st, [], false⟩
      else .ok ⟨200, st, [], false⟩

/-- The line-171 guard
`messaging && (messaging.message || messaging.postback) && messaging.recipient.id === FB_PAGE_ID`
as a predicate; false where its evaluation in JavaScript would throw
(absent `recipient`). -/
def guardPasses (pageId : Nat) (body : Body) : Bool :=
  match getFirstMessagingEntry pageId body with
  | none => false
  | some m =>
      (m.message.isSome || m.postback.isSome) &&
      (match m.recipient with
       | none => false
       | some r => decide (r.id = some pageId))

instance {ε α : Type} [DecidableEq ε] [DecidableEq α] :
    DecidableEq (Except ε α)
  | .error e, .error f =>
      if h : e = f then .isTrue (by rw [h])
      else .isFalse (fun hh => h (Except.error.inj hh))
  | .error _, .ok _ => .isFalse (fun hh => Except.noConfusion hh)
  | .ok _, .error _ => .isFalse (fun hh => Except.noConfusion hh)
  | .ok a, .ok b =>
      if h : a = b then .isTrue (by rw [h])
      else .isFalse (fun hh => h (Except.ok.inj hh))

/-- C3: the loop runs against an immutable store snapshot and only its
completion callback touches the store; for every dispatch completing
with an error — for example `UnknownAction` when the engine names an
unregistered action — the callback leaves the persisted store exactly as
it was when the loop started (it only logs and sends the apology), and
the stored context is replaced only on error-free completion. -/
theorem dispatch_error_preserves_store (st : Store) (sid : String)
    (sender : Nat) (ds : List Decision) (ctx : Ctx)
    (oracle : List (Option CbErr)) :
    (∀ name payload rest,
      runAction st sid ctx name payload (oracle.headD none) = none →
      runActions st sid (Decision.action name payload :: rest) ctx oracle
        = ([], .error "UnknownAction")) ∧
    (∀ e, (runActions st sid ds ctx oracle).2 = .error e →
      witCallback sender sid st (runActions st sid ds ctx oracle).2
        = (st, [Effect.log "Oops! Got an error from Wit:",
                Effect.send sender "Oops! Got an error from Wit"])) ∧
    (∀ c, (runActions st sid ds ctx oracle).2 = .ok c →
      (witCallback sender sid st (runActions st sid ds ctx oracle).2).1
        = replaceContext st sid c) := by
  refine ⟨?_, ?_, ?_⟩
  · intro name payload rest h
    simp only [runActions, h]
  · intro e he
    rw [he]
    rfl
  · intro c hc
    rw [hc]
    rfl

theorem dispatch_error_preserves_store_witness :
    witCallback 9 "s" [("s", ⟨9, [("k", "v")]⟩)]
        (runActions [("s", ⟨9, [("k", "v")]⟩)] "s"
          [Decision.action "nonexistent_action" ""] [("k", "v")] []).2
      = ([("s", ⟨9, [("k", "v")]⟩)],
         [Effect.log "Oops! Got an error from Wit:",
          Effect.send 9 "Oops! Got an error from Wit"]) :=
  (dispatch_error_preserves_store [("s", ⟨9, [("k", "v")]⟩)] "s" 9
      [Decision.action "nonexistent_action" ""] [("k", "v")] []).2.1
    "UnknownAction" (by decide)

/-- C4 counterexample: an otherwise well-formed event whose messaging
entry carries a message but NO `recipient` object is malformed (the
guard cannot pass), yet the handler throws a TypeError evaluating
`messaging.recipient.id`, so it does not acknowledge with 200. -/
theorem postFb_missing_recipient_throws :
    postFb 1 "2024-05-01T12:00:00.000Z"
        ⟨some "page",
         some [⟨some 1,
           some [⟨some ⟨9⟩, none, some ⟨some "hi", none⟩, none⟩]⟩]⟩
        [] [] []
      = .error .typeError ∧
    guardPasses 1
        ⟨some "page",
         some [⟨some 1,
           some [⟨some ⟨9⟩, none, some ⟨some "hi", none⟩, none⟩]⟩]⟩
      = false := by
  decide

/-- C4 (amended): PROVIDED the extracted messaging entry, whenever it
carries a message or postback, also carries a `recipient` object, the
handler never throws on a body failing the guard — malformed or
irrelevant, in particular a recipient object lacking its id — and
creates no session, starts no dispatch, performs no effect, and still
acknowledges with status 200. -/
theorem postFb_malformed_acks (pageId : Nat) (now : String) (body : Body)
    (st : Store) (ds : List Decision) (oracle : List (Option CbErr))
    (hrec : ∀ m, getFirstMessagingEntry pageId body = some m →
      (m.message.isSome || m.postback.isSome) = true →
      m.recipient.isSome = true)
    (hguard : guardPasses pageId body = false) :
    postFb pageId now body st ds oracle = .ok ⟨200, st, [], false⟩ := by
  cases hg : getFirstMessagingEntry pageId body with
  | none => simp [postFb, hg]
  | some m =>
      simp only [guardPasses, hg] at hguard
      by_cases hmp : (m.message.isSome || m.postback.isSome) = true
      · have hrcp := hrec m hg hmp
        cases hr : m.recipient with
        | none =>
            rw [hr] at hrcp
            simp at hrcp
        | some r =>
            simp only [hr, hmp, Bool.true_and, decide_eq_false_iff_not]
              at hguard
            simp [postFb, hg, hmp, hr, hguard]
      · simp only [Bool.not_eq_true] at hmp
        simp [postFb, hg, hmp]

theorem postFb_malformed_acks_witness :
    postFb 1 "2024-05-01T12:00:00.000Z"
        ⟨some "page",
         some [⟨some 1,
           some [⟨some ⟨9⟩, some ⟨none⟩, some ⟨some "hi", none⟩, none⟩]⟩]⟩
        [] [] []
      = .ok ⟨200, [], [], false⟩ :=
  postFb_malformed_acks 1 "2024-05-01T12:00:00.000Z"
    ⟨some "page",
     some [⟨some 1,
       some [⟨some ⟨9⟩, some ⟨none⟩, some ⟨some "hi", none⟩, none⟩]⟩]⟩
    [] [] []
    (by
      intro m hm hmp
      have h0 : getFirstMessagingEntry 1
          ⟨some "page",
           some [⟨some 1,
             some [⟨some ⟨9⟩, some ⟨none⟩, some ⟨some "hi", none⟩, none⟩]⟩]⟩
        = some ⟨some ⟨9⟩, some ⟨none⟩, some ⟨some "hi", none⟩, none⟩ := by
        decide
      rw [h0] at hm
      injection hm with hm2
      rw [← hm2]
      decide)
    (by decide)

/-- C7: on an existing session the `say` action never throws, its
continuation trace is exactly one bare `cb()` invocation — recipient
found with a successful send, recipient found with a transport error,
and falsy recipient alike — and therefore a transport failure inside
`say` never terminates the dispatch loop: the loop outcome with `say` at
the head equals the outcome of the remaining decisions on the unchanged
context. -/
theorem say_continuation_exactly_once (st : Store) (sid payload : String)
    (err : Option CbErr) (rest : List Decision) (ctx : Ctx)
    (oracle2 : List (Option CbErr))
    (h : (Store.get? st sid).isSome = true) :
    (∃ out, say st sid payload err = .ok out) ∧
    (∀ effs cbs, say st sid payload err = .ok (effs, cbs) → cbs = [none]) ∧
    (runActions st sid (Decision.action "say" payload :: rest) ctx
        (err :: oracle2)).2
      = (runActions st sid rest ctx oracle2).2 := by
  rcases Option.isSome_iff_exists.mp h with ⟨s, hs⟩
  refine ⟨?_, ?_, ?_⟩
  · by_cases hf : s.fbid ≠ 0
    · refine ⟨(Effect.send s.fbid payload ::
          (match err with
           | some _ => [Effect.log "error while forwarding the response"]
           | none => []), [none]), ?_⟩
      simp [say, hs, hf]
    · refine ⟨([Effect.log "could not find user for session"], [none]), ?_⟩
      simp [say, hs, hf]
  · intro effs cbs hsay
    by_cases hf : s.fbid ≠ 0
    · simp [say, hs, hf] at hsay
      exact hsay.2.symm
    · simp [say, hs, hf] at hsay
      exact hsay.2.symm
  · by_cases hf : s.fbid ≠ 0 <;>
      simp [runActions, runAction, say, hs, hf, applyCbTrace, Except.map]

theorem say_continuation_exactly_once_witness :
    (∃ out, say [("s", ⟨9, []⟩)] "s" "hello" (some (.transport "boom"))
        = .ok out) ∧
    (∀ effs cbs,
      say [("s", ⟨9, []⟩)] "s" "hello" (some (.transport "boom"))
        = .ok (effs, cbs) → cbs = [none]) ∧
    (runActions [("s", ⟨9, []⟩)] "s"
        (Decision.action "say" "hello" :: [Decision.stop]) []
        (some (.transport "boom") :: [])).2
      = (runActions [("s", ⟨9, []⟩)] "s" [Decision.stop] [] []).2 :=
  say_continuation_exactly_once [("s", ⟨9, []⟩)] "s" "hello"
    (some (.transport "boom")) [Decision.stop] [] [] (by decide)

/-- C10: an inbound event whose message carries attachments, sent by a
user who already has a session (under a truthy sessionId), makes the
handler send exactly one fixed apology text through the gateway, never
invoke the dispatch loop, and leave the store — in particular the
session's stored context — exactly unchanged. -/
theorem attachments_fixed_reply (pageId : Nat) (now : String) (body : Body)
    (st : Store) (ds : List Decision) (oracle : List (Option CbErr))
    (m : Messaging) (sndr : SenderObj) (r : RecipientObj) (mm : MessageObj)
    (l : List Attachment) (sid : String)
    (hm : getFirstMessagingEntry pageId body = some m)
    (hsnd : m.sender = some sndr) (hr : m.recipient = some r)
    (hrid : r.id = some pageId) (hmm : m.message = some mm)
    (hatts : mm.attachments = some l)
    (hsess : lookupSessionId st sndr.id = some sid) (hsid : sid ≠ "") :
    postFb pageId now body st ds oracle
      = .ok ⟨200, st,
          [Effect.send sndr.id
            "Sorry I can only process text messages for now."],
          false⟩ := by
  unfold postFb
  rw [hm]
  have hmp : (m.message.isSome || m.postback.isSome) = true := by
    simp [hmm]
  simp [hmp, hr, hrid, hsnd, hmm, hatts, findOrCreateSession, hsess, hsid]

theorem attachments_fixed_reply_witness :
    postFb 1 "2024-05-01T12:00:00.000Z"
        ⟨some "page",
         some [⟨some 1,
           some [⟨some ⟨9⟩, some ⟨some 1⟩, some ⟨none, some ["img"]⟩,
             none⟩]⟩]⟩
        [("s", ⟨9, [("k", "v")]⟩)] [] []
      = .ok ⟨200, [("s", ⟨9, [("k", "v")]⟩)],
          [Effect.send (SenderObj.mk 9).id
            "Sorry I can only process text messages for now."],
          false⟩ :=
  attachments_fixed_reply 1 "2024-05-01T12:00:00.000Z"
    ⟨some "page",
     some [⟨some 1,
       some [⟨some ⟨9⟩, some ⟨some 1⟩, some ⟨none, some ["img"]⟩, none⟩]⟩]⟩
    [("s", ⟨9, [("k", "v")]⟩)] [] []
    ⟨some ⟨9⟩, some ⟨some 1⟩, some ⟨none, some ["img"]⟩, none⟩
    ⟨9⟩ ⟨some 1⟩ ⟨none, some ["img"]⟩ ["img"] "s"
    (by decide) rfl rfl rfl rfl rfl (by decide) (by decide)
